import Mathlib

/-!
Verification of the golazo Reddit goal-link subsystem.

The definitions below are a shallow embedding of the Go source:
`rateLimiter`, `PublicJSONFetcher.Search` / `OAuthClient.Search` response
handling, `OAuthClient.ensureValidToken`, `Client.GoalLink`,
`Client.GoalLinks`, `Client.searchForGoal` and `Client.searchForGoalOnce`.
Time is modelled as `Int` (nanoseconds for the rate limiter, seconds for the
token lifecycle); HTTP traffic is modelled by passing the response (status,
raw body, decoded payload) as data; the fetcher is modelled as a function
from the number of previously issued calls and the request to an outcome,
and every function that issues requests threads an explicit trace of calls
and sleeps.
-/

namespace Golazo

/-- Whether a pattern is an initial segment: `listStartsWith s pat` is true when `pat` is an initial segment of `s`
(character lists). -/
def listStartsWith : List Char → List Char → Bool
  | _, [] => true
  | [], _ :: _ => false
  | c :: cs, p :: ps => c == p && listStartsWith cs ps

/-- Whether `listContainsSeq pat s` holds, true when `pat` occurs contiguously inside `s`. -/
def listContainsSeq (pat : List Char) : List Char → Bool
  | [] => listStartsWith [] pat
  | c :: rest => listStartsWith (c :: rest) pat || listContainsSeq pat rest

/-- Model of Go `strings.Contains s sub`. -/
def goContains (s sub : String) : Bool :=
  listContainsSeq sub.data s.data

/-- The apostrophe character, written by code point to build the minute
marker strings used in search queries. -/
def apos : Char := Char.ofNat 39

/-! ## Rate limiter (`rateLimiter` in the source)

Times are `Int` nanoseconds. `wait` returns the time at which the call is
permitted (the caller blocks until then) together with the updated state;
this models `time.Sleep(currentInterval - elapsed)` followed by
`r.lastRequest = time.Now()`. -/

/-- One minute in nanoseconds (Go `time.Minute`). -/
def nsMinute : Int := 60000000000

/-- The CAPTCHA cooldown window, 10 minutes in nanoseconds. -/
def captchaCooldown : Int := 600000000000

/-- State of `rateLimiter` (the `mu` mutex is not modelled: all calls are
sequential in this embedding). -/
structure RateLimiter where
  lastRequest : Int
  minInterval : Int
  captchaCount : Nat
  lastCaptchaTime : Int
  userAgentIndex : Nat
deriving DecidableEq, Repr

/-- Model of `newRateLimiter(requestsPerMinute)`: interval is `time.Minute / rpm`. -/
def newRateLimiter (requestsPerMinute : Nat) : RateLimiter :=
  { lastRequest := 0
    minInterval := nsMinute / requestsPerMinute
    captchaCount := 0
    lastCaptchaTime := 0
    userAgentIndex := 0 }

/-- The interval `wait` enforces at time `now`: doubled while a CAPTCHA was
recorded within the last 10 minutes. -/
def currentInterval (r : RateLimiter) (now : Int) : Int :=
  if r.captchaCount > 0 ∧ now - r.lastCaptchaTime < captchaCooldown then
    r.minInterval * 2
  else
    r.minInterval

/-- Model of `rateLimiter.wait` called at time `now`: returns the time the call is
permitted and the updated state. -/
def wait (r : RateLimiter) (now : Int) : Int × RateLimiter :=
  let ci := currentInterval r now
  let elapsed := now - r.lastRequest
  let finish := if elapsed < ci then now + (ci - elapsed) else now
  (finish, { r with lastRequest := finish })

/-- Model of `rateLimiter.recordCaptchaError` at time `now`. -/
def recordCaptchaError (r : RateLimiter) (now : Int) : RateLimiter :=
  { r with captchaCount := r.captchaCount + 1, lastCaptchaTime := now }

/-- A sequence of `wait` calls: each list element is the delay between the
previous permitted call and the next arrival.  Returns the list of permitted
(recorded) times and the final limiter state. -/
def waitRun (r : RateLimiter) (now : Int) : List Int → List Int × RateLimiter
  | [] => ([], r)
  | d :: ds =>
    let p := wait r (now + d)
    let rest := waitRun p.2 p.1 ds
    (p.1 :: rest.1, rest.2)

/-- The fixed user-agent rotation list from the source. -/
def userAgents : List String :=
  ["golazo:v1.0.0 (by /u/golazo_app)",
   "Mozilla/5.0 (Macintosh; Intel Mac OS X 10_15_7) AppleWebKit/537.36 (KHTML, like Gecko) Chrome/119.0.0.0 Safari/537.36",
   "Mozilla/5.0 (Windows NT 10.0; Win64; x64) AppleWebKit/537.36 (KHTML, like Gecko) Chrome/119.0.0.0 Safari/537.36",
   "Mozilla/5.0 (X11; Linux x86_64) AppleWebKit/537.36 (KHTML, like Gecko) Chrome/119.0.0.0 Safari/537.36",
   "Mozilla/5.0 (Macintosh; Intel Mac OS X 10_15_7) AppleWebKit/605.1.15 (KHTML, like Gecko) Version/17.1 Safari/605.1.15"]

/-- Model of `rateLimiter.getNextUserAgent`: returns the current agent and advances
the cursor modulo the list length. -/
def getNextUserAgent (r : RateLimiter) : String × RateLimiter :=
  (userAgents.getD r.userAgentIndex "",
   { r with userAgentIndex := (r.userAgentIndex + 1) % userAgents.length })

/-- The limiter state after `k` calls to `getNextUserAgent`. -/
def agentIter (r : RateLimiter) : Nat → RateLimiter
  | 0 => r
  | k + 1 => agentIter (getNextUserAgent r).2 k

/-- The user agent returned by the `k`-th call (counting from 0) starting
from limiter state `r`. -/
def nthUserAgentFrom (r : RateLimiter) (k : Nat) : String :=
  (getNextUserAgent (agentIter r k)).1

/-! ## Token lifecycle (`OAuthClient`, source `part_001`)

Times are `Int` seconds.  The network outcomes of `refreshToken` and
`authenticate` are passed in as oracles (`none` = the HTTP exchange failed);
on success each sets the token fields exactly as the source does. -/

/-- Reddit's OAuth token response. -/
structure OAuthResponse where
  accessToken : String
  refreshToken : String
  expiresIn : Int
deriving DecidableEq, Repr

/-- The token-carrying fields of `OAuthClient`. -/
structure TokenState where
  accessToken : String
  refreshTokenValue : String
  tokenExpiry : Int
deriving DecidableEq, Repr

/-- The state update a successful `authenticate` performs. -/
def applyAuth (resp : OAuthResponse) (now : Int) : TokenState :=
  { accessToken := resp.accessToken
    refreshTokenValue := resp.refreshToken
    tokenExpiry := now + resp.expiresIn }

/-- The state update a successful `refreshToken` performs: the refresh token
is replaced only when the response carries a new one. -/
def applyRefresh (st : TokenState) (resp : OAuthResponse) (now : Int) : TokenState :=
  { accessToken := resp.accessToken
    refreshTokenValue :=
      if resp.refreshToken ≠ "" then resp.refreshToken else st.refreshTokenValue
    tokenExpiry := now + resp.expiresIn }

/-- Result of `ensureValidToken`: the returned error, the new token state,
and how many `refreshToken` / `authenticate` calls were made. -/
structure EnsureResult where
  err : Option String
  state : TokenState
  refreshCalls : Nat
  authCalls : Nat
deriving DecidableEq, Repr

/-- Model of `OAuthClient.ensureValidToken` at time `now`.  `refreshOutcome` and
`authOutcome` are the oracle responses of the token endpoint for a refresh
and a full authentication (`none` = failure, which leaves the token fields
unchanged, as in the source). -/
def ensureValidToken (st : TokenState) (now : Int)
    (refreshOutcome authOutcome : Option OAuthResponse) : EnsureResult :=
  if st.accessToken ≠ "" ∧ now < st.tokenExpiry - 300 then
    ⟨none, st, 0, 0⟩
  else if st.accessToken = "" ∨ now > st.tokenExpiry - 300 then
    if st.refreshTokenValue ≠ "" then
      match refreshOutcome with
      | some resp => ⟨none, applyRefresh st resp now, 1, 0⟩
      | none =>
        match authOutcome with
        | some resp => ⟨none, applyAuth resp now, 1, 1⟩
        | none => ⟨some "OAuth authentication failed", st, 1, 1⟩
    else
      match authOutcome with
      | some resp => ⟨none, applyAuth resp now, 0, 1⟩
      | none => ⟨some "OAuth authentication failed", st, 0, 1⟩
  else
    ⟨none, st, 0, 0⟩

/-- Model of `OAuthClient.IsAvailable`: token present and not yet expired. -/
def isAvailable (st : TokenState) (now : Int) : Bool :=
  st.accessToken ≠ "" && decide (now < st.tokenExpiry)

/-! ## Data model -/

/-- A goal event supplied by the match-data layer (`GoalInfo`). -/
structure GoalInfo where
  matchID : Nat
  minute : Nat
  homeTeam : String
  awayTeam : String
  isHomeTeam : Bool
  matchTime : Int
deriving DecidableEq, Repr

/-- The cache key `(matchID, minute)` (`GoalLinkKey`). -/
structure GoalLinkKey where
  matchID : Nat
  minute : Nat
deriving DecidableEq, Repr

/-- The key of a goal. -/
def keyOf (g : GoalInfo) : GoalLinkKey :=
  ⟨g.matchID, g.minute⟩

/-- One search hit (`SearchResult`), already decoded from the JSON payload. -/
structure SearchResult where
  url : String
  title : String
  postURL : String
  flair : String
deriving DecidableEq, Repr

/-- A resolved goal link (`GoalLink`). -/
structure GoalLink where
  matchID : Nat
  minute : Nat
  url : String
  title : String
  postURL : String
  fetchedAt : Int
deriving DecidableEq, Repr

/-- A cache entry: a found link, or the explicit "searched, nothing found"
marker. -/
inductive CacheEntry where
  | found (l : GoalLink) : CacheEntry
  | notFound : CacheEntry
deriving DecidableEq, Repr

/-- Modelled from the spec: the `GoalLinkCache` store (its Go file is not in
the sources; per the spec it is an exact-key `GoalKey → ResolutionOutcome`
map with explicit negative markers).  Modelled as a function to `Option`. -/
def Cache : Type := GoalLinkKey → Option CacheEntry

/-- Modelled from the spec: `GoalLinkCache.Get` combined with the
`IsNotFound` test — an exact-key lookup. -/
def cacheGet (c : Cache) (k : GoalLinkKey) : Option CacheEntry := c k

/-- Modelled from the spec: `GoalLinkCache.Set` / `SetNotFound` — an
exact-key write. -/
def cacheSet (c : Cache) (k : GoalLinkKey) (e : CacheEntry) : Cache :=
  fun k' => if k' = k then some e else c k'

/-- The empty cache. -/
def emptyCache : Cache := fun _ => none

/-! ## Fetchers and the resolution orchestrator (`Client`) -/

/-- One `Search(query, limit, matchTime)` request. -/
structure FetchCall where
  query : String
  limit : Nat
  matchTime : Int
deriving DecidableEq, Repr

/-- A fetcher's behaviour: given the number of previously issued calls and
the request, the search either succeeds with hits or fails with the Go error
message. -/
def Fetcher : Type := Nat → FetchCall → Except String (List SearchResult)

/-- The trace of fetch calls issued and orchestrator sleeps (in seconds)
performed so far. -/
structure RunState where
  calls : List FetchCall
  sleeps : List Nat
deriving DecidableEq, Repr

/-- The empty trace. -/
def runState0 : RunState := ⟨[], []⟩

/-- Issue one fetch call, extending the trace. -/
def doFetch (f : Fetcher) (st : RunState) (call : FetchCall) :
    Except String (List SearchResult) × RunState :=
  (f st.calls.length call, { st with calls := st.calls ++ [call] })

/-- The minute marker `fmt.Sprintf("%d'", minute)`. -/
def minuteMarker (m : Nat) : String :=
  toString m ++ String.singleton apos

/-- The scoring team of a goal. -/
def scoringTeam (g : GoalInfo) : String :=
  if g.isHomeTeam then g.homeTeam else g.awayTeam

/-- The primary query `fmt.Sprintf("%s %s %d'", home, away, minute)`. -/
def goalQuery1 (g : GoalInfo) : String :=
  g.homeTeam ++ " " ++ g.awayTeam ++ " " ++ minuteMarker g.minute

/-- The secondary query `fmt.Sprintf("%s %d'", scoringTeam, minute)`. -/
def goalQuery2 (g : GoalInfo) : String :=
  scoringTeam g ++ " " ++ minuteMarker g.minute

/-- The primary fetch call of a goal. -/
def primaryCall (g : GoalInfo) : FetchCall := ⟨goalQuery1 g, 15, g.matchTime⟩

/-- The secondary fetch call of a goal. -/
def secondaryCall (g : GoalInfo) : FetchCall := ⟨goalQuery2 g, 15, g.matchTime⟩

/-- Modelled from the spec: `findBestMatch` (its Go file is not in the
sources; §4.5 documents the minimal contract: prefer hits whose title
contains the scoring team name and the minute marker, ties broken by result
order).  Returns the first such candidate. -/
def findBestMatch (results : List SearchResult) (g : GoalInfo) : Option SearchResult :=
  results.find? fun r =>
    goContains r.title (scoringTeam g) && goContains r.title (minuteMarker g.minute)

/-- The `GoalLink` value built from a matched search hit. -/
def mkGoalLink (g : GoalInfo) (m : SearchResult) (now : Int) : GoalLink :=
  { matchID := g.matchID
    minute := g.minute
    url := m.url
    title := m.title
    postURL := m.postURL
    fetchedAt := now }

/-- Remove duplicate hits by URL, keeping the first occurrence (the `seen`
map loop in `searchForGoalOnce`). -/
def dedupByURL (rs : List SearchResult) : List SearchResult :=
  (rs.foldl
    (fun (acc : List SearchResult × List String) r =>
      if r.url ∈ acc.2 then acc else (acc.1 ++ [r], acc.2 ++ [r.url]))
    ([], [])).1

/-- Model of `Client.searchForGoalOnce`: primary query; on a match return
immediately; otherwise issue the secondary query, merge, de-duplicate by URL
and match once more.  Errors from either query are dropped; every exit
returns a `none` error. -/
def searchForGoalOnce (f : Fetcher) (g : GoalInfo) (now : Int) (st : RunState) :
    (Option GoalLink × Option String) × RunState :=
  let p1 := doFetch f st (primaryCall g)
  match p1.1 with
  | Except.ok results1 =>
    match findBestMatch results1 g with
    | some m => ((some (mkGoalLink g m now), none), p1.2)
    | none =>
      let p2 := doFetch f p1.2 (secondaryCall g)
      let allResults := results1 ++ (match p2.1 with
        | Except.ok rs => rs
        | Except.error _ => [])
      match findBestMatch (dedupByURL allResults) g with
      | some m => ((some (mkGoalLink g m now), none), p2.2)
      | none => ((none, none), p2.2)
  | Except.error _ =>
    let p2 := doFetch f p1.2 (secondaryCall g)
    let allResults := (match p2.1 with
      | Except.ok rs => rs
      | Except.error _ => [])
    match findBestMatch (dedupByURL allResults) g with
    | some m => ((some (mkGoalLink g m now), none), p2.2)
    | none => ((none, none), p2.2)

/-- The error classes `searchForGoal` retries on the public channel:
`strings.Contains` checks on the error message. -/
def retryableErr (msg : String) : Bool :=
  goContains msg "CAPTCHA" || goContains msg "blocking requests" ||
  goContains msg "rate limit" || goContains msg "HTML instead of JSON"

/-- The public-channel retry loop of `Client.searchForGoal`, with the
current attempt index and the number of loop iterations still allowed
(`maxRetries - attempt`).  Before every attempt after the first, it sleeps
`attempt * 30` seconds; a retryable error with attempts remaining continues;
other errors return immediately; an exhausted loop returns "no result". -/
def searchForGoalFrom (f : Fetcher) (g : GoalInfo) (now : Int) :
    Nat → Nat → RunState → (Option GoalLink × Option String) × RunState
  | _, 0, st => ((none, none), st)
  | attempt, remaining + 1, st =>
    let st1 := if attempt > 0 then { st with sleeps := st.sleeps ++ [attempt * 30] } else st
    match searchForGoalOnce f g now st1 with
    | ((result, none), st2) => ((result, none), st2)
    | ((_, some e), st2) =>
      if retryableErr e ∧ remaining > 0 then
        searchForGoalFrom f g now (attempt + 1) remaining st2
      else
        ((none, some e), st2)

/-- The orchestrator's configuration: whether the OAuth fetcher is non-nil
and available, and the two fetchers. -/
structure ClientCfg where
  oauthAvail : Bool
  oauthFetcher : Fetcher
  publicFetcher : Fetcher

/-- Model of `Client.searchForGoal`: OAuth channel when available (no retry),
otherwise the public channel with the retry loop (`maxRetries = 3`). -/
def searchForGoal (cfg : ClientCfg) (g : GoalInfo) (now : Int) (st : RunState) :
    (Option GoalLink × Option String) × RunState :=
  if cfg.oauthAvail then
    match searchForGoalOnce cfg.oauthFetcher g now st with
    | ((_, some e), st') => ((none, some e), st')
    | ((result, none), st') => ((result, none), st')
  else
    searchForGoalFrom cfg.publicFetcher g now 0 3 st

/-- Model of `Client.GoalLink`: serve from cache (translating the `NotFound` marker
to "no result"); on a miss search and cache the outcome; on a search error
return it without caching. -/
def clientGoalLink (cfg : ClientCfg) (g : GoalInfo) (now : Int)
    (cache : Cache) (st : RunState) :
    (Option GoalLink × Option String) × Cache × RunState :=
  match cacheGet cache (keyOf g) with
  | some CacheEntry.notFound => ((none, none), cache, st)
  | some (CacheEntry.found l) => ((some l, none), cache, st)
  | none =>
    match searchForGoal cfg g now st with
    | ((_, some e), st') => ((none, some e), cache, st')
    | ((some l, none), st') =>
      ((some l, none), cacheSet cache (keyOf g) (CacheEntry.found l), st')
    | ((none, none), st') =>
      ((none, none), cacheSet cache (keyOf g) CacheEntry.notFound, st')

/-- The positive-result map `Client.GoalLinks` builds. -/
def LinkMap : Type := GoalLinkKey → Option GoalLink

/-- Map update (Go map assignment). -/
def mapSet (m : LinkMap) (k : GoalLinkKey) (v : GoalLink) : LinkMap :=
  fun k' => if k' = k then some v else m k'

/-- The empty map. -/
def emptyLinkMap : LinkMap := fun _ => none

/-- The de-duplication and cache-filter loop at the top of
`Client.GoalLinks`: walks the input goals with the `seen` key set,
collecting cached positive results and the uncached goals in order. -/
def collectGo (cache : Cache) :
    List GoalInfo → List GoalLinkKey → LinkMap → List GoalInfo →
    LinkMap × List GoalInfo
  | [], _, results, uncached => (results, uncached)
  | g :: rest, seen, results, uncached =>
    if keyOf g ∈ seen then
      collectGo cache rest seen results uncached
    else
      match cacheGet cache (keyOf g) with
      | some (CacheEntry.found l) =>
        collectGo cache rest (seen ++ [keyOf g]) (mapSet results (keyOf g) l) uncached
      | some CacheEntry.notFound =>
        collectGo cache rest (seen ++ [keyOf g]) results uncached
      | none =>
        collectGo cache rest (seen ++ [keyOf g]) results (uncached ++ [g])

/-- The per-goal body of the batch loop in `Client.GoalLinks`: resolve each
goal, recording it in the map when the call returned a link and no error. -/
def processBatchGoals (cfg : ClientCfg) (now : Int) :
    List GoalInfo → LinkMap → Cache → RunState → LinkMap × Cache × RunState
  | [], results, cache, st => (results, cache, st)
  | g :: rest, results, cache, st =>
    match clientGoalLink cfg g now cache st with
    | ((link, err), cache', st') =>
      let results' := match err, link with
        | none, some l => mapSet results (keyOf g) l
        | _, _ => results
      processBatchGoals cfg now rest results' cache' st'

/-- The batch loop of `Client.GoalLinks`: batches of `BatchSize = 5`, with a
`BatchDelay = 2` second sleep before every batch except the first. -/
def runBatches (cfg : ClientCfg) (now : Int) (gs : List GoalInfo)
    (isFirst : Bool) (results : LinkMap) (cache : Cache) (st : RunState) :
    LinkMap × Cache × RunState :=
  match gs with
  | [] => (results, cache, st)
  | a :: l =>
    let st1 := if isFirst then st else { st with sleeps := st.sleeps ++ [2] }
    match processBatchGoals cfg now ((a :: l).take 5) results cache st1 with
    | (results2, cache2, st2) =>
      runBatches cfg now ((a :: l).drop 5) false results2 cache2 st2
  termination_by gs.length
  decreasing_by simp [List.length_drop]; omega

/-- Model of `Client.GoalLinks`: de-duplicate by key, serve cached keys, resolve the
rest in batches. -/
def clientGoalLinks (cfg : ClientCfg) (goals : List GoalInfo) (now : Int)
    (cache : Cache) (st : RunState) : LinkMap × Cache × RunState :=
  match collectGo cache goals [] emptyLinkMap [] with
  | (results, uncached) => runBatches cfg now uncached true results cache st

/-! ## Fetcher response handling (`PublicJSONFetcher.Search`,
`OAuthClient.Search`)

The HTTP exchange is modelled by the response data: status code, raw body
string, and the result of `json.Unmarshal` followed by `toSearchResult` on
each child (`none` when unmarshalling fails).  `publicHandle` and
`oauthHandle` embed the code from the status check to the return. -/

/-- The raw data of one search response. -/
structure HttpResponse where
  status : Nat
  body : String
  parsed : Option (List SearchResult)
deriving Repr

/-- The fixed challenge-page phrase list of `isCaptchaResponse`. -/
def captchaIndicators : List String :=
  ["prove your humanity", "captcha", "robot", "automated", "blocked",
   "rate limit", "too many requests"]

/-- ASCII lower-casing of one character (Go `strings.ToLower` on the ASCII
bodies involved). -/
def lowerChar (c : Char) : Char :=
  if 65 ≤ c.toNat ∧ c.toNat ≤ 90 then Char.ofNat (c.toNat + 32) else c

/-- ASCII lower-casing of a string. -/
def goToLower (s : String) : String := ⟨s.data.map lowerChar⟩

/-- Model of `isCaptchaResponse`: case-insensitive substring match against the fixed
phrase list. -/
def isCaptchaResponse (body : String) : Bool :=
  captchaIndicators.any fun ind => goContains (goToLower body) ind

/-- Response handling of `PublicJSONFetcher.Search` (after the request):
non-success status returns an error (without touching the limiter); a 200
body classified as a challenge records a CAPTCHA signal and returns the
blocked error; an unparseable 200 body returns the HTML-vs-JSON error when
it carries markup markers, a plain parse error otherwise; a parsed body
returns only the Media-flair hits. -/
def publicHandle (resp : HttpResponse) (rl : RateLimiter) (now : Int) :
    Except String (List SearchResult) × RateLimiter :=
  if resp.status ≠ 200 then
    (Except.error ("reddit API error: status " ++ toString resp.status ++
      ", body: " ++ resp.body), rl)
  else if isCaptchaResponse resp.body then
    (Except.error "reddit is blocking requests (CAPTCHA/bot detection)",
     recordCaptchaError rl now)
  else
    match resp.parsed with
    | none =>
      if goContains resp.body "<html" || goContains resp.body "<!DOCTYPE html" then
        (Except.error "reddit returned HTML instead of JSON (likely CAPTCHA or rate limit)", rl)
      else
        (Except.error "parse response: unmarshal error", rl)
    | some children =>
      (Except.ok (children.filter fun r => r.flair == "Media"), rl)

/-- Response handling of `OAuthClient.Search` (after the request): no
challenge detection and no abuse signal; non-success status and parse
failures return plain errors; a parsed body returns only the Media-flair
hits. -/
def oauthHandle (resp : HttpResponse) : Except String (List SearchResult) :=
  if resp.status ≠ 200 then
    Except.error ("OAuth search failed with status " ++ toString resp.status ++
      ": " ++ resp.body)
  else
    match resp.parsed with
    | none => Except.error "parse search response: unmarshal error"
    | some children =>
      Except.ok (children.filter fun r => r.flair == "Media")

/-! ## Rate limiter lemmas -/

theorem userAgents_length : userAgents.length = 5 := rfl

theorem getNextUserAgent_index (r : RateLimiter) :
    (getNextUserAgent r).2.userAgentIndex = (r.userAgentIndex + 1) % 5 := rfl

theorem agentIter_index (k : Nat) :
    ∀ r : RateLimiter, r.userAgentIndex < 5 →
      (agentIter r k).userAgentIndex = (r.userAgentIndex + k) % 5 := by
  induction k with
  | zero => intro r h; simp [agentIter]; omega
  | succ k ih =>
    intro r h
    have h2 : (getNextUserAgent r).2.userAgentIndex = (r.userAgentIndex + 1) % 5 :=
      getNextUserAgent_index r
    have h3 : (getNextUserAgent r).2.userAgentIndex < 5 := by omega
    have h4 := ih (getNextUserAgent r).2 h3
    simp only [agentIter]
    rw [h4, h2]
    omega

theorem nthUserAgentFrom_eq (k : Nat) :
    nthUserAgentFrom (newRateLimiter 5) k = userAgents.getD (k % 5) "" := by
  have h := agentIter_index k (newRateLimiter 5) (by decide)
  have h0 : (newRateLimiter 5).userAgentIndex = 0 := rfl
  rw [h0, Nat.zero_add] at h
  simp only [nthUserAgentFrom, getNextUserAgent, h]

/-- C9: the identity rotation is pure round-robin: the `k`-th call to
`getNextUserAgent` (from a fresh limiter, counting from 0) returns
`userAgents[k mod 5]`, and any 5 consecutive calls return the 5 fixed
user-agent strings exactly once each, in list order (a rotation of the
list). -/
theorem userAgent_rotation_round_robin :
    ∀ k : Nat,
      nthUserAgentFrom (newRateLimiter 5) k = userAgents.getD (k % 5) ""
      ∧ (List.range 5).map (fun i => nthUserAgentFrom (newRateLimiter 5) (k + i)) =
          userAgents.rotate (k % 5)
      ∧ ((List.range 5).map
          (fun i => nthUserAgentFrom (newRateLimiter 5) (k + i))).Perm userAgents := by
  intro k
  have hwin : (List.range 5).map (fun i => nthUserAgentFrom (newRateLimiter 5) (k + i)) =
      userAgents.rotate (k % 5) := by
    have hr : List.range 5 = [0, 1, 2, 3, 4] := rfl
    rw [hr]
    simp only [List.map, nthUserAgentFrom_eq]
    rcases (by omega : k % 5 = 0 ∨ k % 5 = 1 ∨ k % 5 = 2 ∨ k % 5 = 3 ∨ k % 5 = 4) with
      h | h | h | h | h <;>
      rw [h, (by omega : (k + 0) % 5 = k % 5), (by omega : (k + 1) % 5 = (k % 5 + 1) % 5),
        (by omega : (k + 2) % 5 = (k % 5 + 2) % 5), (by omega : (k + 3) % 5 = (k % 5 + 3) % 5),
        (by omega : (k + 4) % 5 = (k % 5 + 4) % 5), h] <;> rfl
  refine ⟨nthUserAgentFrom_eq k, hwin, ?_⟩
  rw [hwin]
  exact List.rotate_perm userAgents (k % 5)

theorem wait_state (r : RateLimiter) (now : Int) :
    (wait r now).2 = { r with lastRequest := (wait r now).1 } := rfl

theorem wait_finish_ge (r : RateLimiter) (now : Int) :
    (wait r now).1 ≥ r.lastRequest + currentInterval r now := by
  simp only [wait]
  split <;> omega

theorem wait_finish_ge_now (r : RateLimiter) (now : Int) :
    (wait r now).1 ≥ now := by
  simp only [wait]
  split <;> omega

theorem currentInterval_ge (r : RateLimiter) (now : Int) (h : 0 ≤ r.minInterval) :
    r.minInterval ≤ currentInterval r now := by
  simp only [currentInterval]
  split <;> omega

theorem waitRun_lastRequest (ds : List Int) :
    ∀ (r : RateLimiter) (now : Int), 0 ≤ r.minInterval →
      (waitRun r now ds).2.lastRequest ≥ r.lastRequest + ds.length * r.minInterval
      ∧ (waitRun r now ds).2.minInterval = r.minInterval := by
  induction ds with
  | nil => intro r now _; simp [waitRun]
  | cons d ds ih =>
    intro r now h
    have h1 := wait_finish_ge r (now + d)
    have h2 := currentInterval_ge r (now + d) h
    have hst : (wait r (now + d)).2 = { r with lastRequest := (wait r (now + d)).1 } :=
      wait_state r (now + d)
    have hlr : (wait r (now + d)).2.lastRequest = (wait r (now + d)).1 := by rw [hst]
    have hmi : (wait r (now + d)).2.minInterval = r.minInterval := by rw [hst]
    have h3 := ih (wait r (now + d)).2 (wait r (now + d)).1 (by rw [hmi]; exact h)
    rw [hlr, hmi] at h3
    simp only [waitRun, List.length_cons]
    constructor
    · have hgap : (wait r (now + d)).1 ≥ r.lastRequest + r.minInterval := by omega
      have h31 := h3.1
      push_cast
      nlinarith [h31, hgap]
    · exact h3.2

/-- C7: `wait` blocks until at least the enforced interval has elapsed
since the last permitted call, records the permitted time, the enforced
interval is at least the base interval and exactly the doubled base
interval for any call within the 10-minute cooldown window after a recorded
abuse signal, a run of `1 + n` calls spans at least `n × minInterval`, and
a limiter for `R` requests/minute has base interval `minute / R`. -/
theorem rateLimiter_wait_bounds :
    (∀ (r : RateLimiter) (now : Int),
      (wait r now).2 = { r with lastRequest := (wait r now).1 }
      ∧ (wait r now).1 ≥ r.lastRequest + currentInterval r now
      ∧ (wait r now).1 ≥ now)
    ∧ (∀ (r : RateLimiter) (now : Int), 0 ≤ r.minInterval →
        r.minInterval ≤ currentInterval r now)
    ∧ (∀ (r : RateLimiter) (tSig now : Int), now - tSig < captchaCooldown →
        currentInterval (recordCaptchaError r tSig) now = r.minInterval * 2)
    ∧ (∀ (r : RateLimiter) (now d : Int) (rest : List Int), 0 ≤ r.minInterval →
        (waitRun r now (d :: rest)).1.headD 0 = (wait r (now + d)).1
        ∧ (waitRun r now (d :: rest)).2.lastRequest
            - (waitRun r now (d :: rest)).1.headD 0
            ≥ (rest.length : Int) * r.minInterval)
    ∧ (∀ R : Nat, (newRateLimiter R).minInterval = nsMinute / R) := by
  refine ⟨fun r now => ⟨wait_state r now, wait_finish_ge r now, wait_finish_ge_now r now⟩,
    currentInterval_ge, ?_, ?_, fun _ => rfl⟩
  · intro r tSig now h
    simp only [currentInterval, recordCaptchaError]
    rw [if_pos]
    exact ⟨Nat.succ_pos _, h⟩
  · intro r now d rest h
    have hst : (wait r (now + d)).2 = { r with lastRequest := (wait r (now + d)).1 } :=
      wait_state r (now + d)
    have hlr : (wait r (now + d)).2.lastRequest = (wait r (now + d)).1 := by rw [hst]
    have hmi : (wait r (now + d)).2.minInterval = r.minInterval := by rw [hst]
    have h3 := waitRun_lastRequest rest (wait r (now + d)).2 (wait r (now + d)).1
      (by rw [hmi]; exact h)
    rw [hlr, hmi] at h3
    constructor
    · simp [waitRun]
    · simp only [waitRun, List.headD_cons]
      omega

/-- Witness for `rateLimiter_wait_bounds` at concrete inputs. -/
theorem rateLimiter_wait_bounds_witness :
    ((wait (newRateLimiter 5) 7).1 ≥
       (newRateLimiter 5).lastRequest + currentInterval (newRateLimiter 5) 7)
    ∧ ((newRateLimiter 5).minInterval ≤ currentInterval (newRateLimiter 5) 7)
    ∧ (currentInterval (recordCaptchaError (newRateLimiter 5) 3) 5 =
        (newRateLimiter 5).minInterval * 2)
    ∧ ((waitRun (newRateLimiter 5) 0 [1, 2, 3]).2.lastRequest
        - (waitRun (newRateLimiter 5) 0 [1, 2, 3]).1.headD 0
        ≥ ((([2, 3] : List Int).length : Int) * (newRateLimiter 5).minInterval)) := by
  refine ⟨(rateLimiter_wait_bounds.1 (newRateLimiter 5) 7).2.1,
    rateLimiter_wait_bounds.2.1 (newRateLimiter 5) 7 (by decide),
    rateLimiter_wait_bounds.2.2.1 (newRateLimiter 5) 3 5 (by decide),
    (rateLimiter_wait_bounds.2.2.2.1 (newRateLimiter 5) 0 1 [2, 3] (by decide)).2⟩

/-! ## Token lifecycle lemmas -/

/-- C6: `ensureValidToken` performs a refresh or re-authentication exactly
when the token is absent or less than 5 minutes (300 s) remain to its
expiry; 4 minutes from expiry with a refresh token it performs exactly one
refresh and no authentication; more than 5 minutes from expiry it performs
neither; and when a due refresh fails it falls back to a full
authentication. -/
theorem ensureValidToken_refresh_policy :
    (∀ (st : TokenState) (now : Int) (ro ao : Option OAuthResponse),
      0 < (ensureValidToken st now ro ao).refreshCalls +
            (ensureValidToken st now ro ao).authCalls
        ↔ (st.accessToken = "" ∨ st.tokenExpiry - now < 300))
    ∧ (∀ (st : TokenState) (now : Int) (resp : OAuthResponse) (ao : Option OAuthResponse),
        st.accessToken ≠ "" → st.refreshTokenValue ≠ "" → st.tokenExpiry - now = 240 →
        ensureValidToken st now (some resp) ao = ⟨none, applyRefresh st resp now, 1, 0⟩)
    ∧ (∀ (st : TokenState) (now : Int) (ro ao : Option OAuthResponse),
        st.accessToken ≠ "" → 300 < st.tokenExpiry - now →
        ensureValidToken st now ro ao = ⟨none, st, 0, 0⟩)
    ∧ (∀ (st : TokenState) (now : Int) (ao : Option OAuthResponse),
        st.refreshTokenValue ≠ "" →
        (st.accessToken = "" ∨ st.tokenExpiry - now < 300) →
        (ensureValidToken st now none ao).refreshCalls = 1
        ∧ (ensureValidToken st now none ao).authCalls = 1) := by
  refine ⟨?_, ?_, ?_, ?_⟩
  · intro st now ro ao
    by_cases hA : st.accessToken = ""
    · have h1 : ¬(st.accessToken ≠ "" ∧ now < st.tokenExpiry - 300) := by tauto
      simp only [ensureValidToken, if_neg h1, if_pos (Or.inl hA)]
      by_cases hR : st.refreshTokenValue ≠ ""
      · rw [if_pos hR]
        cases ro <;> [skip; simp [hA]]
        cases ao <;> simp [hA]
      · rw [if_neg hR]
        cases ao <;> simp [hA]
    · by_cases hLt : now < st.tokenExpiry - 300
      · have h1 : st.accessToken ≠ "" ∧ now < st.tokenExpiry - 300 := ⟨hA, hLt⟩
        simp only [ensureValidToken, if_pos h1]
        simp only [Nat.add_zero, Nat.lt_irrefl, false_iff]
        rintro (h | h)
        · exact hA h
        · omega
      · have h1 : ¬(st.accessToken ≠ "" ∧ now < st.tokenExpiry - 300) := by tauto
        by_cases hGt : now > st.tokenExpiry - 300
        · simp only [ensureValidToken, if_neg h1, if_pos (Or.inr hGt)]
          by_cases hR : st.refreshTokenValue ≠ ""
          · rw [if_pos hR]
            cases ro <;> [skip; (simp; omega)]
            cases ao <;> simp <;> omega
          · rw [if_neg hR]
            cases ao <;> simp <;> omega
        · have h2 : ¬(st.accessToken = "" ∨ now > st.tokenExpiry - 300) := by tauto
          simp only [ensureValidToken, if_neg h1, if_neg h2]
          simp only [Nat.add_zero, Nat.lt_irrefl, false_iff]
          rintro (h | h)
          · exact hA h
          · omega
  · intro st now resp ao hA hR hT
    have h1 : ¬(st.accessToken ≠ "" ∧ now < st.tokenExpiry - 300) := by
      rintro ⟨-, h⟩; omega
    have h2 : st.accessToken = "" ∨ now > st.tokenExpiry - 300 := Or.inr (by omega)
    simp only [ensureValidToken, if_neg h1, if_pos h2, if_pos hR]
  · intro st now ro ao hA hT
    have h1 : st.accessToken ≠ "" ∧ now < st.tokenExpiry - 300 := ⟨hA, by omega⟩
    simp only [ensureValidToken, if_pos h1]
  · intro st now ao hR hDue
    have hGt : st.accessToken = "" ∨ now > st.tokenExpiry - 300 := by
      rcases hDue with h | h
      · exact Or.inl h
      · exact Or.inr (by omega)
    have h1 : ¬(st.accessToken ≠ "" ∧ now < st.tokenExpiry - 300) := by
      rintro ⟨hA, hLt⟩
      rcases hDue with h | h
      · exact hA h
      · omega
    simp only [ensureValidToken, if_neg h1, if_pos hGt, if_pos hR]
    cases ao <;> simp

/-- Witness for `ensureValidToken_refresh_policy`: a concrete token state 4
minutes from expiry triggers exactly one refresh, one more than 5 minutes
out triggers none, and a failing refresh falls back to authentication. -/
theorem ensureValidToken_refresh_policy_witness :
    (0 < (ensureValidToken ⟨"tok", "ref", 240⟩ 0 (some ⟨"tok2", "", 3600⟩) none).refreshCalls +
          (ensureValidToken ⟨"tok", "ref", 240⟩ 0 (some ⟨"tok2", "", 3600⟩) none).authCalls
      ↔ (("tok" : String) = "" ∨ (240 : Int) - 0 < 300))
    ∧ ensureValidToken ⟨"tok", "ref", 240⟩ 0 (some ⟨"tok2", "", 3600⟩) none =
        ⟨none, applyRefresh ⟨"tok", "ref", 240⟩ ⟨"tok2", "", 3600⟩ 0, 1, 0⟩
    ∧ ensureValidToken ⟨"tok", "ref", 900⟩ 0 none none = ⟨none, ⟨"tok", "ref", 900⟩, 0, 0⟩
    ∧ (ensureValidToken ⟨"tok", "ref", 240⟩ 0 none (some ⟨"tok3", "r3", 3600⟩)).refreshCalls = 1
    ∧ (ensureValidToken ⟨"tok", "ref", 240⟩ 0 none (some ⟨"tok3", "r3", 3600⟩)).authCalls = 1 := by
  have h4 := ensureValidToken_refresh_policy.2.2.2 ⟨"tok", "ref", 240⟩ 0
    (some ⟨"tok3", "r3", 3600⟩) (by decide) (Or.inr (by decide))
  exact ⟨ensureValidToken_refresh_policy.1 ⟨"tok", "ref", 240⟩ 0 (some ⟨"tok2", "", 3600⟩) none,
    ensureValidToken_refresh_policy.2.1 ⟨"tok", "ref", 240⟩ 0 ⟨"tok2", "", 3600⟩ none
      (by decide) (by decide) (by decide),
    ensureValidToken_refresh_policy.2.2.1 ⟨"tok", "ref", 900⟩ 0 none none
      (by decide) (by decide),
    h4.1, h4.2⟩

/-! ## Search orchestration lemmas -/

/-- Every exit of `searchForGoalOnce` returns a `none` error: the errors of
both fetch calls are dropped. -/
theorem searchForGoalOnce_error_none (f : Fetcher) (g : GoalInfo) (now : Int)
    (st : RunState) : (searchForGoalOnce f g now st).1.2 = none := by
  simp only [searchForGoalOnce, doFetch]
  repeat' (first | rfl | split)

/-- The function `searchForGoalOnce` never touches the sleep log. -/
theorem searchForGoalOnce_sleeps (f : Fetcher) (g : GoalInfo) (now : Int)
    (st : RunState) : (searchForGoalOnce f g now st).2.sleeps = st.sleeps := by
  simp only [searchForGoalOnce, doFetch]
  repeat' (first | rfl | split)

/-- Because `searchForGoalOnce` never reports an error, the public-channel
retry loop always returns after its first attempt, with no backoff sleep. -/
theorem searchForGoalFrom_zero (f : Fetcher) (g : GoalInfo) (now : Int)
    (rem : Nat) (st : RunState) :
    searchForGoalFrom f g now 0 (rem + 1) st =
      (((searchForGoalOnce f g now st).1.1, none), (searchForGoalOnce f g now st).2) := by
  have hE := searchForGoalOnce_error_none f g now st
  rcases hO : searchForGoalOnce f g now st with ⟨⟨res, err⟩, st2⟩
  rw [hO] at hE
  simp only at hE
  subst hE
  simp only [searchForGoalFrom, gt_iff_lt, Nat.lt_irrefl, if_false, hO]

/-- The fetcher `searchForGoal` actually uses. -/
def channelFetcher (cfg : ClientCfg) : Fetcher :=
  if cfg.oauthAvail then cfg.oauthFetcher else cfg.publicFetcher

/-- The function `searchForGoal` always performs exactly one `searchForGoalOnce` attempt
on the selected channel and returns its result with a `none` error. -/
theorem searchForGoal_eq (cfg : ClientCfg) (g : GoalInfo) (now : Int) (st : RunState) :
    searchForGoal cfg g now st =
      (((searchForGoalOnce (channelFetcher cfg) g now st).1.1, none),
       (searchForGoalOnce (channelFetcher cfg) g now st).2) := by
  simp only [searchForGoal, channelFetcher]
  by_cases hA : cfg.oauthAvail
  · simp only [if_pos hA]
    have hE := searchForGoalOnce_error_none cfg.oauthFetcher g now st
    rcases hO : searchForGoalOnce cfg.oauthFetcher g now st with ⟨⟨res, err⟩, st2⟩
    rw [hO] at hE
    simp only at hE
    subst hE
    simp only [hO]
  · simp only [if_neg hA]
    exact searchForGoalFrom_zero cfg.publicFetcher g now 2 st

/-- The function `searchForGoal` never touches the sleep log (the retry backoff is
unreachable). -/
theorem searchForGoal_sleeps (cfg : ClientCfg) (g : GoalInfo) (now : Int)
    (st : RunState) : (searchForGoal cfg g now st).2.sleeps = st.sleeps := by
  rw [searchForGoal_eq]
  exact searchForGoalOnce_sleeps (channelFetcher cfg) g now st

/-- C10: `searchForGoalOnce` always returns a `nil` error; when the primary
query errors the secondary query is still issued; and when both queries
error it returns exactly what a completed no-match search returns —
`(none, none)` with both calls in the trace. -/
theorem searchForGoalOnce_error_free :
    ∀ (f : Fetcher) (g : GoalInfo) (now : Int) (st : RunState),
      (searchForGoalOnce f g now st).1.2 = none
      ∧ (∀ e, f st.calls.length (primaryCall g) = Except.error e →
          (searchForGoalOnce f g now st).2.calls =
            st.calls ++ [primaryCall g, secondaryCall g])
      ∧ (∀ e e2, f st.calls.length (primaryCall g) = Except.error e →
          f (st.calls.length + 1) (secondaryCall g) = Except.error e2 →
          searchForGoalOnce f g now st =
            ((none, none), ⟨st.calls ++ [primaryCall g, secondaryCall g], st.sleeps⟩)) := by
  intro f g now st
  refine ⟨searchForGoalOnce_error_none f g now st, ?_, ?_⟩
  · intro e h1
    simp only [searchForGoalOnce, doFetch, h1]
    split <;> simp
  · intro e e2 h1 h2
    have h2' : f (st.calls ++ [primaryCall g]).length (secondaryCall g) = Except.error e2 := by
      simpa using h2
    simp only [searchForGoalOnce, doFetch, h1, h2']
    simp [dedupByURL, findBestMatch]

/-- Witness for `searchForGoalOnce_error_free`: a fetcher that always fails
leads to a no-error, no-result outcome with both queries traced. -/
def errFetcher : Fetcher := fun _ _ => Except.error "connection refused"

/-- The example goal from the spec's test scenarios. -/
def goalA : GoalInfo := ⟨555, 23, "Arsenal", "Chelsea", true, 0⟩

theorem searchForGoalOnce_error_free_witness :
    searchForGoalOnce errFetcher goalA 0 runState0 =
      ((none, none), ⟨runState0.calls ++ [primaryCall goalA, secondaryCall goalA],
        runState0.sleeps⟩) :=
  (searchForGoalOnce_error_free errFetcher goalA 0 runState0).2.2
    "connection refused" "connection refused" rfl rfl

/-- C4: the primary query is always issued first and is the only call when
the matcher finds a match among its results — the secondary query is issued
exactly when the primary attempt produced no match. -/
theorem searchForGoalOnce_primary_short_circuit :
    ∀ (f : Fetcher) (g : GoalInfo) (now : Int) (st : RunState),
      ((searchForGoalOnce f g now st).2.calls = st.calls ++ [primaryCall g]
        ∨ (searchForGoalOnce f g now st).2.calls =
            st.calls ++ [primaryCall g, secondaryCall g])
      ∧ (∀ rs m, f st.calls.length (primaryCall g) = Except.ok rs →
          findBestMatch rs g = some m →
          searchForGoalOnce f g now st =
            ((some (mkGoalLink g m now), none), ⟨st.calls ++ [primaryCall g], st.sleeps⟩))
      ∧ (∀ rs, f st.calls.length (primaryCall g) = Except.ok rs →
          findBestMatch rs g = none →
          (searchForGoalOnce f g now st).2.calls =
            st.calls ++ [primaryCall g, secondaryCall g]) := by
  intro f g now st
  refine ⟨?_, ?_, ?_⟩
  · rcases h1 : f st.calls.length (primaryCall g) with e | rs
    · right
      simp only [searchForGoalOnce, doFetch, h1]
      split <;> simp
    · rcases h2 : findBestMatch rs g with _ | m
      · right
        simp only [searchForGoalOnce, doFetch, h1, h2]
        split <;> simp
      · left
        simp only [searchForGoalOnce, doFetch, h1, h2]
  · intro rs m h1 h2
    simp only [searchForGoalOnce, doFetch, h1, h2]
  · intro rs h1 h2
    simp only [searchForGoalOnce, doFetch, h1, h2]
    split <;> simp

/-- A fetcher for the witness: the primary query of `goalA` returns one
matching Media hit. -/
def hitA : SearchResult :=
  ⟨"https://streamable.example/v1", "Arsenal goal " ++ minuteMarker 23 ++ " vs Chelsea",
   "https://reddit.example/p1", "Media"⟩

def oneHitFetcher : Fetcher := fun _ c =>
  if c = primaryCall goalA then Except.ok [hitA] else Except.ok []

theorem searchForGoalOnce_primary_short_circuit_witness :
    searchForGoalOnce oneHitFetcher goalA 0 runState0 =
      ((some (mkGoalLink goalA hitA 0), none),
       ⟨runState0.calls ++ [primaryCall goalA], runState0.sleeps⟩) :=
  (searchForGoalOnce_primary_short_circuit oneHitFetcher goalA 0 runState0).2.1
    [hitA] hitA (by rfl) (by rfl)

/-! ## `Client.GoalLink` lemmas -/

/-- C1: with a cache entry present for the goal's key, `GoalLink` answers
from the cache: a `Found` entry is returned as the link, the `NotFound`
marker as no result with no error, and in both cases the cache and the
call/sleep trace are untouched — no fetcher is invoked. -/
theorem goalLink_cache_hit :
    ∀ (cfg : ClientCfg) (g : GoalInfo) (now : Int) (cache : Cache)
      (st : RunState) (e : CacheEntry),
      cacheGet cache (keyOf g) = some e →
      clientGoalLink cfg g now cache st =
        ((match e with
          | CacheEntry.found l => (some l, none)
          | CacheEntry.notFound => (none, none)), cache, st) := by
  intro cfg g now cache st e h
  cases e <;> simp [clientGoalLink, h]

/-- Witness for `goalLink_cache_hit` with a cached link and a cached
`NotFound` marker. -/
def linkA : GoalLink :=
  ⟨555, 23, "https://streamable.example/v1", "Arsenal goal", "https://reddit.example/p1", 0⟩

theorem goalLink_cache_hit_witness :
    clientGoalLink ⟨false, errFetcher, errFetcher⟩ goalA 0
        (cacheSet emptyCache (keyOf goalA) (CacheEntry.found linkA)) runState0 =
      ((some linkA, none), cacheSet emptyCache (keyOf goalA) (CacheEntry.found linkA), runState0)
    ∧ clientGoalLink ⟨false, errFetcher, errFetcher⟩ goalA 0
        (cacheSet emptyCache (keyOf goalA) CacheEntry.notFound) runState0 =
      ((none, none), cacheSet emptyCache (keyOf goalA) CacheEntry.notFound, runState0) :=
  ⟨goalLink_cache_hit ⟨false, errFetcher, errFetcher⟩ goalA 0 _ runState0
      (CacheEntry.found linkA) rfl,
   goalLink_cache_hit ⟨false, errFetcher, errFetcher⟩ goalA 0 _ runState0
      CacheEntry.notFound rfl⟩

/-- C2 (code bug): on a cache miss with a fetcher that fails every request,
`GoalLink` returns no error (the fetch errors are dropped inside
`searchForGoalOnce`) and writes the `NotFound` marker to the cache, so the
failure is not retried.  The `if err != nil` no-caching branch of
`GoalLink` is unreachable. -/
theorem goalLink_fetch_error_caches_notFound :
    clientGoalLink ⟨false, errFetcher, errFetcher⟩ goalA 0 emptyCache runState0 =
      ((none, none), cacheSet emptyCache (keyOf goalA) CacheEntry.notFound,
       ⟨[primaryCall goalA, secondaryCall goalA], []⟩) := rfl

/-- C3 (code bug): with OAuth unavailable and a public fetcher that always
fails with the blocked/CAPTCHA error, `searchForGoal` performs a single
`searchForGoalOnce` attempt — two fetch calls, no backoff sleeps — and
returns "no result" with no error; the 3-attempt retry loop never runs
because `searchForGoalOnce` never reports the error. -/
def blockedFetcher : Fetcher :=
  fun _ _ => Except.error "reddit is blocking requests (CAPTCHA/bot detection)"

theorem searchForGoal_blocked_single_attempt :
    searchForGoal ⟨false, blockedFetcher, blockedFetcher⟩ goalA 0 runState0 =
      ((none, none), ⟨[primaryCall goalA, secondaryCall goalA], []⟩) := rfl

/-! ## Fetcher response classification (C8) -/

/-- C8 counterexample: a non-success status on the public fetcher returns
an error but records no abuse signal (the limiter is returned unchanged,
`captchaCount` still 0), and the authenticated fetcher never consults the
challenge detector: a 200 response whose body the detector would classify
as a challenge, but which fails decoding, yields only the plain parse
error. -/
theorem fetcher_status_error_no_abuse_signal :
    publicHandle ⟨500, "internal server error", none⟩ (newRateLimiter 5) 0 =
      (Except.error "reddit API error: status 500, body: internal server error",
       newRateLimiter 5)
    ∧ (newRateLimiter 5).captchaCount = 0
    ∧ isCaptchaResponse "your request was blocked <html>" = true
    ∧ oauthHandle ⟨200, "your request was blocked <html>", none⟩ =
        Except.error "parse search response: unmarshal error" := by
  refine ⟨?_, rfl, by decide, rfl⟩
  rfl

/-- C8 (amended): on the public fetcher, a 200 response classified as a
challenge page records an abuse signal and returns the blocked-typed error,
while a non-success status returns a status error without recording any
signal; the authenticated fetcher records no signals and never runs the
detector (plain errors for bad status and undecodable bodies); on success
both variants return only Media-category hits; and the blocked error — but
not a plain parse error — is recognized by the retry classifier. -/
theorem fetcher_response_classification :
    ∀ (resp : HttpResponse) (rl : RateLimiter) (now : Int),
      (resp.status = 200 → isCaptchaResponse resp.body = true →
        publicHandle resp rl now =
          (Except.error "reddit is blocking requests (CAPTCHA/bot detection)",
           recordCaptchaError rl now)
        ∧ (recordCaptchaError rl now).captchaCount = rl.captchaCount + 1
        ∧ (recordCaptchaError rl now).lastCaptchaTime = now)
      ∧ (resp.status ≠ 200 →
        publicHandle resp rl now =
          (Except.error ("reddit API error: status " ++ toString resp.status ++
            ", body: " ++ resp.body), rl))
      ∧ (∀ rs, resp.status = 200 → isCaptchaResponse resp.body = false →
          resp.parsed = some rs →
          publicHandle resp rl now = (Except.ok (rs.filter fun r => r.flair == "Media"), rl)
          ∧ ∀ r ∈ rs.filter (fun r => r.flair == "Media"), r.flair = "Media")
      ∧ (resp.status ≠ 200 →
        oauthHandle resp = Except.error ("OAuth search failed with status " ++
          toString resp.status ++ ": " ++ resp.body))
      ∧ (resp.status = 200 → resp.parsed = none →
        oauthHandle resp = Except.error "parse search response: unmarshal error")
      ∧ (∀ rs, resp.status = 200 → resp.parsed = some rs →
        oauthHandle resp = Except.ok (rs.filter fun r => r.flair == "Media"))
      ∧ retryableErr "reddit is blocking requests (CAPTCHA/bot detection)" = true
      ∧ retryableErr "parse response: unmarshal error" = false := by
  intro resp rl now
  refine ⟨?_, ?_, ?_, ?_, ?_, ?_, by decide, by decide⟩
  · intro h200 hcap
    refine ⟨?_, rfl, rfl⟩
    simp [publicHandle, h200, hcap]
  · intro hbad
    simp [publicHandle, hbad]
  · intro rs h200 hcap hp
    refine ⟨by simp [publicHandle, h200, hcap, hp], ?_⟩
    intro r hr
    have h := (List.mem_filter.mp hr).2
    simpa using h
  · intro hbad
    simp [oauthHandle, hbad]
  · intro h200 hp
    simp [oauthHandle, h200, hp]
  · intro rs h200 hp
    simp [oauthHandle, h200, hp]

/-- Concrete responses for the witness. -/
def respBlocked : HttpResponse := ⟨200, "you have been blocked", none⟩

def nonMediaHit : SearchResult :=
  ⟨"https://reddit.example/d1", "Match thread", "https://reddit.example/d1", "Discussion"⟩

def respOk : HttpResponse := ⟨200, "ok", some [hitA, nonMediaHit]⟩

def respBad : HttpResponse := ⟨503, "service unavailable", none⟩

theorem fetcher_response_classification_witness :
    publicHandle respBlocked (newRateLimiter 5) 9 =
      (Except.error "reddit is blocking requests (CAPTCHA/bot detection)",
       recordCaptchaError (newRateLimiter 5) 9)
    ∧ publicHandle respBad (newRateLimiter 5) 9 =
        (Except.error ("reddit API error: status " ++ toString respBad.status ++
          ", body: " ++ respBad.body), newRateLimiter 5)
    ∧ publicHandle respOk (newRateLimiter 5) 9 =
        (Except.ok ([hitA, nonMediaHit].filter fun r => r.flair == "Media"), newRateLimiter 5)
    ∧ oauthHandle respBad = Except.error ("OAuth search failed with status " ++
        toString respBad.status ++ ": " ++ respBad.body)
    ∧ oauthHandle respBlocked = Except.error "parse search response: unmarshal error"
    ∧ oauthHandle respOk = Except.ok ([hitA, nonMediaHit].filter fun r => r.flair == "Media") :=
  ⟨((fetcher_response_classification respBlocked (newRateLimiter 5) 9).1 rfl (by decide)).1,
   (fetcher_response_classification respBad (newRateLimiter 5) 9).2.1 (by decide),
   ((fetcher_response_classification respOk (newRateLimiter 5) 9).2.2.1
     [hitA, nonMediaHit] rfl (by decide) rfl).1,
   (fetcher_response_classification respBad (newRateLimiter 5) 9).2.2.2.1 (by decide),
   (fetcher_response_classification respBlocked (newRateLimiter 5) 9).2.2.2.2.1 rfl rfl,
   (fetcher_response_classification respOk (newRateLimiter 5) 9).2.2.2.2.2.1
     [hitA, nonMediaHit] rfl rfl⟩

/-! ## `Client.GoalLinks` lemmas

Phase 1 (`collectGo`) is characterised against `dedupFirst`, the
first-occurrence de-duplication of the input by key. -/

/-- First-occurrence de-duplication of goals by key, given the keys already
seen. -/
def dedupFirst : List GoalInfo → List GoalLinkKey → List GoalInfo
  | [], _ => []
  | g :: rest, seen =>
    if keyOf g ∈ seen then dedupFirst rest seen
    else g :: dedupFirst rest (seen ++ [keyOf g])

theorem mapSet_ne (m : LinkMap) (k k' : GoalLinkKey) (v : GoalLink) (h : k' ≠ k) :
    mapSet m k v k' = m k' := by
  simp [mapSet, h]

theorem mapSet_self (m : LinkMap) (k : GoalLinkKey) (v : GoalLink) :
    mapSet m k v k = some v := by
  simp [mapSet]

theorem cacheSet_ne (c : Cache) (k k' : GoalLinkKey) (e : CacheEntry) (h : k' ≠ k) :
    cacheSet c k e k' = c k' := by
  simp [cacheSet, h]

theorem cacheSet_self (c : Cache) (k : GoalLinkKey) (e : CacheEntry) :
    cacheSet c k e k = some e := by
  simp [cacheSet]

/-- A goal whose key was already seen earlier in the input is dropped by
the de-duplication loop. -/
theorem collectGo_dup (cache : Cache) (post : List GoalInfo) (dup : GoalInfo) :
    ∀ (pre : List GoalInfo) (seen : List GoalLinkKey) (r : LinkMap) (u : List GoalInfo),
      (keyOf dup ∈ seen ∨ keyOf dup ∈ pre.map keyOf) →
      collectGo cache (pre ++ dup :: post) seen r u = collectGo cache (pre ++ post) seen r u := by
  intro pre
  induction pre with
  | nil =>
    intro seen r u h
    have hs : keyOf dup ∈ seen := by
      rcases h with h | h
      · exact h
      · simp at h
    simp only [List.nil_append, collectGo, if_pos hs]
  | cons p pre ih =>
    intro seen r u h
    by_cases hk : keyOf p ∈ seen
    · simp only [List.cons_append, collectGo, if_pos hk]
      refine ih seen r u ?_
      rcases h with h | h
      · exact Or.inl h
      · simp only [List.map_cons, List.mem_cons] at h
        rcases h with h | h
        · exact Or.inl (h ▸ hk)
        · exact Or.inr h
    · have hnext : keyOf dup ∈ seen ++ [keyOf p] ∨ keyOf dup ∈ pre.map keyOf := by
        rcases h with h | h
        · exact Or.inl (List.mem_append_left _ h)
        · simp only [List.map_cons, List.mem_cons] at h
          rcases h with h | h
          · exact Or.inl (List.mem_append_right _ (by simp [h]))
          · exact Or.inr h
      simp only [List.cons_append, collectGo, if_neg hk]
      rcases hc : cacheGet cache (keyOf p) with _ | e
      · exact ih _ _ _ hnext
      · cases e <;> exact ih _ _ _ hnext

/-- The uncached list produced by phase 1: the first-occurrence
de-duplication of the input, filtered to keys without a cache entry. -/
theorem collectGo_uncached (cache : Cache) :
    ∀ (goals : List GoalInfo) (seen : List GoalLinkKey) (r : LinkMap) (u : List GoalInfo),
      (collectGo cache goals seen r u).2 =
        u ++ (dedupFirst goals seen).filter (fun g => (cacheGet cache (keyOf g)).isNone) := by
  intro goals
  induction goals with
  | nil => intro seen r u; simp [collectGo, dedupFirst]
  | cons g rest ih =>
    intro seen r u
    by_cases hk : keyOf g ∈ seen
    · simp only [collectGo, if_pos hk, dedupFirst]
      exact ih seen r u
    · simp only [collectGo, if_neg hk, dedupFirst]
      rcases hc : cacheGet cache (keyOf g) with _ | e
      · rw [ih _ _ _]
        simp [List.filter_cons, hc]
      · cases e <;>
          · rw [ih _ _ _]
            simp [List.filter_cons, hc]

/-- Phase-1 results at a key backed by a positive cache entry. -/
theorem collectGo_results_found (cache : Cache) (k : GoalLinkKey) (l : GoalLink)
    (hc : cacheGet cache k = some (CacheEntry.found l)) :
    ∀ (goals : List GoalInfo) (seen : List GoalLinkKey) (r : LinkMap) (u : List GoalInfo),
      (collectGo cache goals seen r u).1 k =
        if k ∈ (dedupFirst goals seen).map keyOf then some l else r k := by
  intro goals
  induction goals with
  | nil => intro seen r u; simp [collectGo, dedupFirst]
  | cons g rest ih =>
    intro seen r u
    by_cases hk : keyOf g ∈ seen
    · simp only [collectGo, if_pos hk, dedupFirst]
      exact ih seen r u
    · simp only [collectGo, if_neg hk, dedupFirst]
      rcases hcg : cacheGet cache (keyOf g) with _ | e
      · rw [ih _ _ _]
        have hne : k ≠ keyOf g := by
          intro he; rw [he, hcg] at hc; exact Option.noConfusion hc
        simp [List.mem_cons, hne]
      · cases e with
        | found l2 =>
          rw [ih _ _ _]
          by_cases hke : k = keyOf g
          · have hl2 : l2 = l := by
              rw [hke, hcg] at hc
              injection hc with h1
              injection h1
            subst hl2
            rw [hke]
            by_cases hm : keyOf g ∈ (dedupFirst rest (seen ++ [keyOf g])).map keyOf <;>
              simp [hm, mapSet_self, List.mem_cons]
          · simp only [List.map_cons, List.mem_cons]
            by_cases hm : k ∈ (dedupFirst rest (seen ++ [keyOf g])).map keyOf
            · simp [hm, hke]
            · simp [hm, hke, mapSet_ne r (keyOf g) k l2 hke]
        | notFound =>
          rw [ih _ _ _]
          have hne : k ≠ keyOf g := by
            intro he; rw [he, hcg] at hc
            injection hc with h1
            exact CacheEntry.noConfusion h1
          simp [List.mem_cons, hne]

/-- Phase-1 results at a key with no positive cache entry: unchanged. -/
theorem collectGo_results_other (cache : Cache) (k : GoalLinkKey)
    (hc : ∀ l, cacheGet cache k ≠ some (CacheEntry.found l)) :
    ∀ (goals : List GoalInfo) (seen : List GoalLinkKey) (r : LinkMap) (u : List GoalInfo),
      (collectGo cache goals seen r u).1 k = r k := by
  intro goals
  induction goals with
  | nil => intro seen r u; simp [collectGo]
  | cons g rest ih =>
    intro seen r u
    by_cases hk : keyOf g ∈ seen
    · simp only [collectGo, if_pos hk]
      exact ih seen r u
    · simp only [collectGo, if_neg hk]
      rcases hcg : cacheGet cache (keyOf g) with _ | e
      · exact ih _ _ _
      · cases e with
        | found l2 =>
          rw [ih _ _ _]
          have hne : k ≠ keyOf g := by
            intro he; rw [he] at hc; exact hc l2 hcg
          exact mapSet_ne r (keyOf g) k l2 hne
        | notFound => exact ih _ _ _

/-- Membership in the keys of the de-duplicated list. -/
theorem dedupFirst_keys_mem (k : GoalLinkKey) :
    ∀ (goals : List GoalInfo) (seen : List GoalLinkKey),
      (k ∈ (dedupFirst goals seen).map keyOf ↔ (k ∈ goals.map keyOf ∧ k ∉ seen)) := by
  intro goals
  induction goals with
  | nil => intro seen; simp [dedupFirst]
  | cons g rest ih =>
    intro seen
    by_cases hk : keyOf g ∈ seen
    · rw [dedupFirst, if_pos hk, ih seen]
      simp only [List.map_cons, List.mem_cons]
      constructor
      · rintro ⟨h1, h2⟩; exact ⟨Or.inr h1, h2⟩
      · rintro ⟨h1 | h1, h2⟩
        · exact absurd (h1 ▸ hk) h2
        · exact ⟨h1, h2⟩
    · rw [dedupFirst, if_neg hk]
      simp only [List.map_cons, List.mem_cons, ih (seen ++ [keyOf g])]
      constructor
      · rintro (h | ⟨h1, h2⟩)
        · exact ⟨Or.inl h, h ▸ hk⟩
        · exact ⟨Or.inr h1, fun hs => h2 (List.mem_append_left _ hs)⟩
      · rintro ⟨h1 | h1, h2⟩
        · exact Or.inl h1
        · by_cases he : k = keyOf g
          · exact Or.inl he
          · refine Or.inr ⟨h1, fun hs => ?_⟩
            rcases List.mem_append.mp hs with hs | hs
            · exact h2 hs
            · simp only [List.mem_singleton] at hs
              exact he hs

/-- Every goal kept by the de-duplication appears in the input. -/
theorem dedupFirst_subset :
    ∀ (goals : List GoalInfo) (seen : List GoalLinkKey) (g : GoalInfo),
      g ∈ dedupFirst goals seen → g ∈ goals := by
  intro goals
  induction goals with
  | nil => intro seen g h; simp [dedupFirst] at h
  | cons p rest ih =>
    intro seen g h
    by_cases hk : keyOf p ∈ seen
    · rw [dedupFirst, if_pos hk] at h
      exact List.mem_cons_of_mem p (ih seen g h)
    · rw [dedupFirst, if_neg hk] at h
      rcases List.mem_cons.mp h with h | h
      · exact h ▸ List.mem_cons_self p rest
      · exact List.mem_cons_of_mem p (ih _ g h)

/-- The keys of the de-duplicated list are pairwise distinct. -/
theorem dedupFirst_keys_nodup :
    ∀ (goals : List GoalInfo) (seen : List GoalLinkKey),
      ((dedupFirst goals seen).map keyOf).Nodup := by
  intro goals
  induction goals with
  | nil => intro seen; simp [dedupFirst]
  | cons g rest ih =>
    intro seen
    by_cases hk : keyOf g ∈ seen
    · rw [dedupFirst, if_pos hk]; exact ih seen
    · rw [dedupFirst, if_neg hk]
      simp only [List.map_cons, List.nodup_cons]
      refine ⟨?_, ih _⟩
      intro hmem
      have := (dedupFirst_keys_mem (keyOf g) rest (seen ++ [keyOf g])).mp hmem
      exact this.2 (List.mem_append_right _ (by simp))

/-- On a cache miss, `GoalLink` runs one `searchForGoalOnce` on the selected
channel and caches its outcome (positive or the `NotFound` marker). -/
theorem clientGoalLink_miss_eq (cfg : ClientCfg) (g : GoalInfo) (now : Int)
    (cache : Cache) (st : RunState) (h : cacheGet cache (keyOf g) = none) :
    clientGoalLink cfg g now cache st =
      match (searchForGoalOnce (channelFetcher cfg) g now st).1.1 with
      | some l => ((some l, none), cacheSet cache (keyOf g) (CacheEntry.found l),
                   (searchForGoalOnce (channelFetcher cfg) g now st).2)
      | none => ((none, none), cacheSet cache (keyOf g) CacheEntry.notFound,
                 (searchForGoalOnce (channelFetcher cfg) g now st).2) := by
  rcases hO : searchForGoalOnce (channelFetcher cfg) g now st with ⟨⟨res, err⟩, st2⟩
  have hS : searchForGoal cfg g now st = ((res, none), st2) := by
    rw [searchForGoal_eq, hO]
  simp only [clientGoalLink, h, hS]
  cases res <;> rfl

/-- The function `GoalLink` never changes cache entries at other keys. -/
theorem clientGoalLink_cache_ne (cfg : ClientCfg) (g : GoalInfo) (now : Int)
    (cache : Cache) (st : RunState) (k : GoalLinkKey) (hk : k ≠ keyOf g) :
    (clientGoalLink cfg g now cache st).2.1 k = cache k := by
  rcases hc : cacheGet cache (keyOf g) with _ | e
  · rw [clientGoalLink_miss_eq cfg g now cache st hc]
    rcases (searchForGoalOnce (channelFetcher cfg) g now st).1.1 with _ | l <;>
      simp [cacheSet_ne _ _ _ _ hk]
  · cases e <;> simp [clientGoalLink, hc]

/-- The function `GoalLink` never sleeps. -/
theorem clientGoalLink_sleeps (cfg : ClientCfg) (g : GoalInfo) (now : Int)
    (cache : Cache) (st : RunState) :
    (clientGoalLink cfg g now cache st).2.2.sleeps = st.sleeps := by
  rcases hc : cacheGet cache (keyOf g) with _ | e
  · rw [clientGoalLink_miss_eq cfg g now cache st hc]
    rcases (searchForGoalOnce (channelFetcher cfg) g now st).1.1 with _ | l <;>
      simp [searchForGoalOnce_sleeps]
  · cases e <;> simp [clientGoalLink, hc]

/-- Invariant of the per-goal batch body: on pairwise-distinct, uncached,
unrecorded keys it leaves other keys alone, gives each processed goal a
cache entry, records a goal in the map exactly when its cache entry is
positive, and never sleeps. -/
theorem processBatchGoals_spec (cfg : ClientCfg) (now : Int) :
    ∀ (gs : List GoalInfo) (r : LinkMap) (c : Cache) (st : RunState),
      (gs.map keyOf).Nodup →
      (∀ g ∈ gs, c (keyOf g) = none) →
      (∀ g ∈ gs, r (keyOf g) = none) →
      (∀ k, k ∉ gs.map keyOf →
        (processBatchGoals cfg now gs r c st).1 k = r k
        ∧ (processBatchGoals cfg now gs r c st).2.1 k = c k)
      ∧ (∀ g ∈ gs, ∀ l,
          ((processBatchGoals cfg now gs r c st).1 (keyOf g) = some l ↔
            (processBatchGoals cfg now gs r c st).2.1 (keyOf g) =
              some (CacheEntry.found l))
          ∧ ((processBatchGoals cfg now gs r c st).2.1 (keyOf g)).isSome = true)
      ∧ (processBatchGoals cfg now gs r c st).2.2.sleeps = st.sleeps := by
  intro gs
  induction gs with
  | nil =>
    intro r c st _ _ _
    exact ⟨fun k _ => ⟨rfl, rfl⟩, fun g hg => absurd hg (List.not_mem_nil g), rfl⟩
  | cons g rest ih =>
    intro r c st hnd hc hr
    have hmiss : cacheGet c (keyOf g) = none := hc g (List.mem_cons_self g rest)
    have hkey : keyOf g ∉ rest.map keyOf := by
      simp only [List.map_cons, List.nodup_cons] at hnd
      exact hnd.1
    have hnd' : (rest.map keyOf).Nodup := by
      simp only [List.map_cons, List.nodup_cons] at hnd
      exact hnd.2
    have hne : ∀ g' ∈ rest, keyOf g' ≠ keyOf g := by
      intro g' hg' he
      exact hkey (he ▸ List.mem_map_of_mem keyOf hg')
    have hCL := clientGoalLink_miss_eq cfg g now c st hmiss
    have hsl := searchForGoalOnce_sleeps (channelFetcher cfg) g now st
    rcases hL : (searchForGoalOnce (channelFetcher cfg) g now st).1.1 with _ | l
    · -- no link found: the NotFound marker is cached
      rw [hL] at hCL
      simp only at hCL
      have hc' : ∀ g' ∈ rest, cacheSet c (keyOf g) CacheEntry.notFound (keyOf g') = none := by
        intro g' hg'
        rw [cacheSet_ne _ _ _ _ (hne g' hg')]
        exact hc g' (List.mem_cons_of_mem g hg')
      have hr' : ∀ g' ∈ rest, r (keyOf g') = none :=
        fun g' hg' => hr g' (List.mem_cons_of_mem g hg')
      have hIH := ih r (cacheSet c (keyOf g) CacheEntry.notFound)
        (searchForGoalOnce (channelFetcher cfg) g now st).2 hnd' hc' hr'
      simp only [processBatchGoals, hCL]
      refine ⟨?_, ?_, ?_⟩
      · intro k hk
        simp only [List.map_cons, List.mem_cons] at hk
        push_neg at hk
        have h1 := (hIH.1 k hk.2)
        rw [h1.1, h1.2, cacheSet_ne _ _ _ _ hk.1]
        exact ⟨rfl, rfl⟩
      · intro g' hg' l0
        rcases List.mem_cons.mp hg' with hg' | hg'
        · subst hg'
          have h1 := hIH.1 (keyOf g') hkey
          rw [h1.1, h1.2, cacheSet_self, hr g' (List.mem_cons_self g' rest)]
          simp
        · exact hIH.2.1 g' hg' l0
      · rw [hIH.2.2, hsl]
    · -- a link was found and cached
      rw [hL] at hCL
      simp only at hCL
      have hc' : ∀ g' ∈ rest,
          cacheSet c (keyOf g) (CacheEntry.found l) (keyOf g') = none := by
        intro g' hg'
        rw [cacheSet_ne _ _ _ _ (hne g' hg')]
        exact hc g' (List.mem_cons_of_mem g hg')
      have hr' : ∀ g' ∈ rest, mapSet r (keyOf g) l (keyOf g') = none := by
        intro g' hg'
        rw [mapSet_ne _ _ _ _ (hne g' hg')]
        exact hr g' (List.mem_cons_of_mem g hg')
      have hIH := ih (mapSet r (keyOf g) l) (cacheSet c (keyOf g) (CacheEntry.found l))
        (searchForGoalOnce (channelFetcher cfg) g now st).2 hnd' hc' hr'
      simp only [processBatchGoals, hCL]
      refine ⟨?_, ?_, ?_⟩
      · intro k hk
        simp only [List.map_cons, List.mem_cons] at hk
        push_neg at hk
        have h1 := (hIH.1 k hk.2)
        rw [h1.1, h1.2, cacheSet_ne _ _ _ _ hk.1, mapSet_ne _ _ _ _ hk.1]
        exact ⟨rfl, rfl⟩
      · intro g' hg' l0
        rcases List.mem_cons.mp hg' with hg' | hg'
        · subst hg'
          have h1 := hIH.1 (keyOf g') hkey
          rw [h1.1, h1.2, cacheSet_self, mapSet_self]
          simp
        · exact hIH.2.1 g' hg' l0
      · rw [hIH.2.2, hsl]

/-- Number of inter-batch sleeps the batch loop performs on `n` goals. -/
def numSleeps (n : Nat) (isFirst : Bool) : Nat :=
  if isFirst then (n + 4) / 5 - 1 else (n + 4) / 5

/-- Invariant of the batch loop: same map/cache behaviour as the per-goal
body, plus exactly one 2-second sleep before every batch except the
first. -/
theorem runBatches_spec (cfg : ClientCfg) (now : Int) :
    ∀ (n : Nat) (gs : List GoalInfo), gs.length ≤ n →
      ∀ (isFirst : Bool) (r : LinkMap) (c : Cache) (st : RunState),
        (gs.map keyOf).Nodup →
        (∀ g ∈ gs, c (keyOf g) = none) →
        (∀ g ∈ gs, r (keyOf g) = none) →
        (∀ k, k ∉ gs.map keyOf →
          (runBatches cfg now gs isFirst r c st).1 k = r k
          ∧ (runBatches cfg now gs isFirst r c st).2.1 k = c k)
        ∧ (∀ g ∈ gs, ∀ l0,
            ((runBatches cfg now gs isFirst r c st).1 (keyOf g) = some l0 ↔
              (runBatches cfg now gs isFirst r c st).2.1 (keyOf g) =
                some (CacheEntry.found l0))
            ∧ ((runBatches cfg now gs isFirst r c st).2.1 (keyOf g)).isSome = true)
        ∧ (runBatches cfg now gs isFirst r c st).2.2.sleeps =
            st.sleeps ++ List.replicate (numSleeps gs.length isFirst) 2 := by
  intro n
  induction n with
  | zero =>
    intro gs hlen isFirst r c st _ _ _
    have hnil : gs = [] := List.eq_nil_of_length_eq_zero (Nat.le_zero.mp hlen)
    subst hnil
    have hout : runBatches cfg now [] isFirst r c st = (r, c, st) := by
      simp [runBatches]
    rw [hout]
    refine ⟨fun k _ => ⟨rfl, rfl⟩, fun g hg => absurd hg (List.not_mem_nil g), ?_⟩
    cases isFirst <;> simp [numSleeps]
  | succ n ihn =>
    intro gs hlen isFirst r c st hnd hc hr
    cases gs with
    | nil =>
      have hout : runBatches cfg now [] isFirst r c st = (r, c, st) := by
        simp [runBatches]
      rw [hout]
      refine ⟨fun k _ => ⟨rfl, rfl⟩, fun g hg => absurd hg (List.not_mem_nil g), ?_⟩
      cases isFirst <;> simp [numSleeps]
    | cons a l =>
      have htd := List.take_append_drop 5 (a :: l)
      have hmapsplit : (a :: l).map keyOf =
          ((a :: l).take 5).map keyOf ++ ((a :: l).drop 5).map keyOf := by
        rw [← List.map_append, htd]
      have hndsplit := hmapsplit ▸ hnd
      rcases List.nodup_append.mp hndsplit with ⟨hndT, hndD, hdisj⟩
      have hsubT : ∀ g ∈ (a :: l).take 5, g ∈ a :: l :=
        fun g hg => List.take_subset 5 _ hg
      have hsubD : ∀ g ∈ (a :: l).drop 5, g ∈ a :: l :=
        fun g hg => List.drop_subset 5 _ hg
      rcases hP : processBatchGoals cfg now ((a :: l).take 5) r c
          (if isFirst then st else { st with sleeps := st.sleeps ++ [2] }) with ⟨r2, c2, st2⟩
      have hstep : runBatches cfg now (a :: l) isFirst r c st =
          runBatches cfg now ((a :: l).drop 5) false r2 c2 st2 := by
        simp only [runBatches]
        rw [hP]
      have HB := processBatchGoals_spec cfg now ((a :: l).take 5) r c
        (if isFirst then st else { st with sleeps := st.sleeps ++ [2] })
        hndT (fun g hg => hc g (hsubT g hg)) (fun g hg => hr g (hsubT g hg))
      rw [hP] at HB
      dsimp only at HB
      have hlenD : ((a :: l).drop 5).length ≤ n := by
        simp only [List.length_drop, List.length_cons]
        have := hlen
        simp only [List.length_cons] at this
        omega
      have hcD : ∀ g ∈ (a :: l).drop 5, c2 (keyOf g) = none := by
        intro g hg
        have hkT : keyOf g ∉ ((a :: l).take 5).map keyOf :=
          fun hT => hdisj hT (List.mem_map_of_mem keyOf hg)
        rw [(HB.1 (keyOf g) hkT).2]
        exact hc g (hsubD g hg)
      have hrD : ∀ g ∈ (a :: l).drop 5, r2 (keyOf g) = none := by
        intro g hg
        have hkT : keyOf g ∉ ((a :: l).take 5).map keyOf :=
          fun hT => hdisj hT (List.mem_map_of_mem keyOf hg)
        rw [(HB.1 (keyOf g) hkT).1]
        exact hr g (hsubD g hg)
      have hIH := ihn ((a :: l).drop 5) hlenD false r2 c2 st2 hndD hcD hrD
      rw [hstep]
      refine ⟨?_, ?_, ?_⟩
      · intro k hk
        have hkT : k ∉ ((a :: l).take 5).map keyOf :=
          fun h => hk (hmapsplit ▸ List.mem_append_left _ h)
        have hkD : k ∉ ((a :: l).drop 5).map keyOf :=
          fun h => hk (hmapsplit ▸ List.mem_append_right _ h)
        have h1 := hIH.1 k hkD
        have h2 := HB.1 k hkT
        rw [h1.1, h1.2, h2.1, h2.2]
        exact ⟨rfl, rfl⟩
      · intro g hg l0
        have hg' : g ∈ (a :: l).take 5 ++ (a :: l).drop 5 := by rw [htd]; exact hg
        rcases List.mem_append.mp hg' with hgT | hgD
        · have hkD : keyOf g ∉ ((a :: l).drop 5).map keyOf :=
            fun hD => hdisj (List.mem_map_of_mem keyOf hgT) hD
          have h1 := hIH.1 (keyOf g) hkD
          rw [h1.1, h1.2]
          exact HB.2.1 g hgT l0
        · exact hIH.2.1 g hgD l0
      · rw [hIH.2.2, HB.2.2]
        cases isFirst
        · simp only [Bool.false_eq_true, if_false]
          rw [List.append_assoc, List.singleton_append, ← List.replicate_succ]
          have hcnt : numSleeps ((a :: l).drop 5).length false + 1 =
              numSleeps (a :: l).length false := by
            simp only [numSleeps, List.length_drop, List.length_cons, if_false,
              Bool.false_eq_true]
            omega
          rw [hcnt]
        · simp only [if_true]
          have hcnt : numSleeps ((a :: l).drop 5).length false =
              numSleeps (a :: l).length true := by
            simp only [numSleeps, List.length_drop, List.length_cons, if_false, if_true,
              Bool.false_eq_true]
            omega
          rw [hcnt]

/-- The function `GoalLinks` is phase 1 followed by the batch loop. -/
theorem clientGoalLinks_eq (cfg : ClientCfg) (goals : List GoalInfo) (now : Int)
    (cache : Cache) (st : RunState) :
    clientGoalLinks cfg goals now cache st =
      runBatches cfg now (collectGo cache goals [] emptyLinkMap []).2 true
        (collectGo cache goals [] emptyLinkMap []).1 cache st := by
  rcases hC : collectGo cache goals [] emptyLinkMap [] with ⟨R0, U⟩
  simp [clientGoalLinks, hC]

/-- The uncached goals have pairwise-distinct keys. -/
theorem uncachedGoals_nodup (cache : Cache) (goals : List GoalInfo) :
    (((collectGo cache goals [] emptyLinkMap []).2).map keyOf).Nodup := by
  rw [collectGo_uncached, List.nil_append]
  exact List.Nodup.sublist (List.Sublist.map keyOf (List.filter_sublist _))
    (dedupFirst_keys_nodup goals [])

/-- The uncached goals are indeed uncached. -/
theorem uncachedGoals_cache_none (cache : Cache) (goals : List GoalInfo) :
    ∀ g ∈ (collectGo cache goals [] emptyLinkMap []).2, cache (keyOf g) = none := by
  intro g hg
  rw [collectGo_uncached, List.nil_append] at hg
  have h := (List.mem_filter.mp hg).2
  exact Option.isNone_iff_eq_none.mp h

/-- Phase-1 results carry nothing at uncached keys. -/
theorem uncachedGoals_r_none (cache : Cache) (goals : List GoalInfo) :
    ∀ g ∈ (collectGo cache goals [] emptyLinkMap []).2,
      (collectGo cache goals [] emptyLinkMap []).1 (keyOf g) = none := by
  intro g hg
  have hnone := uncachedGoals_cache_none cache goals g hg
  have hno : ∀ l, cacheGet cache (keyOf g) ≠ some (CacheEntry.found l) := by
    intro l h
    rw [show cacheGet cache (keyOf g) = cache (keyOf g) from rfl, hnone] at h
    exact Option.noConfusion h
  rw [collectGo_results_other cache (keyOf g) hno goals [] emptyLinkMap []]
  rfl

/-- A key is among the uncached goals' keys iff it is an input key without
a cache entry. -/
theorem uncachedGoals_keys (cache : Cache) (goals : List GoalInfo) (k : GoalLinkKey) :
    k ∈ ((collectGo cache goals [] emptyLinkMap []).2).map keyOf ↔
      (k ∈ goals.map keyOf ∧ cache k = none) := by
  rw [collectGo_uncached, List.nil_append]
  constructor
  · intro h
    obtain ⟨g, hg, hgk⟩ := List.mem_map.mp h
    rcases List.mem_filter.mp hg with ⟨hgd, hgp⟩
    refine ⟨?_, ?_⟩
    · exact hgk ▸ List.mem_map_of_mem keyOf (dedupFirst_subset goals [] g hgd)
    · rw [← hgk]
      exact Option.isNone_iff_eq_none.mp hgp
  · rintro ⟨hkG, hkc⟩
    have hkd : k ∈ (dedupFirst goals []).map keyOf :=
      (dedupFirst_keys_mem k goals []).mpr ⟨hkG, List.not_mem_nil k⟩
    obtain ⟨g, hgd, hgk⟩ := List.mem_map.mp hkd
    refine List.mem_map.mpr ⟨g, List.mem_filter.mpr ⟨hgd, ?_⟩, hgk⟩
    rw [show cacheGet cache (keyOf g) = cache (keyOf g) from rfl, hgk, hkc]
    rfl

/-- C5: `GoalLinks` drops later goals whose key already occurred (first
occurrence wins); with every input key cached it does no resolution work at
all (cache and trace untouched); it sleeps 2 seconds before every batch of
5 uncached goals except the first; its returned map holds exactly the input
keys whose final cache entry is a positive link; and every de-duplicated
uncached goal ends up with a cache entry (per-goal outcomes never abort the
batch). -/
theorem goalLinks_batching_spec :
    ∀ (cfg : ClientCfg) (now : Int) (cache : Cache) (st : RunState),
      (∀ (pre post : List GoalInfo) (dup : GoalInfo), keyOf dup ∈ pre.map keyOf →
        clientGoalLinks cfg (pre ++ dup :: post) now cache st =
          clientGoalLinks cfg (pre ++ post) now cache st)
      ∧ (∀ goals : List GoalInfo,
          (∀ g ∈ goals, (cacheGet cache (keyOf g)).isSome = true) →
          (clientGoalLinks cfg goals now cache st).2.1 = cache
          ∧ (clientGoalLinks cfg goals now cache st).2.2 = st)
      ∧ (∀ goals : List GoalInfo,
          (clientGoalLinks cfg goals now cache st).2.2.sleeps =
            st.sleeps ++ List.replicate
              (numSleeps (collectGo cache goals [] emptyLinkMap []).2.length true) 2)
      ∧ (∀ (goals : List GoalInfo) (k : GoalLinkKey) (l : GoalLink),
          (clientGoalLinks cfg goals now cache st).1 k = some l ↔
            (k ∈ goals.map keyOf
              ∧ (clientGoalLinks cfg goals now cache st).2.1 k =
                  some (CacheEntry.found l)))
      ∧ (∀ goals : List GoalInfo, ∀ g ∈ (collectGo cache goals [] emptyLinkMap []).2,
          ((clientGoalLinks cfg goals now cache st).2.1 (keyOf g)).isSome = true) := by
  intro cfg now cache st
  refine ⟨?_, ?_, ?_, ?_, ?_⟩
  · intro pre post dup h
    simp only [clientGoalLinks]
    rw [collectGo_dup cache post dup pre [] emptyLinkMap [] (Or.inr h)]
  · intro goals hcached
    have hU : (collectGo cache goals [] emptyLinkMap []).2 = [] := by
      rw [collectGo_uncached, List.nil_append]
      apply List.filter_eq_nil_iff.mpr
      intro g hg
      have hmem := dedupFirst_subset goals [] g hg
      have hs := hcached g hmem
      rcases hck : cacheGet cache (keyOf g) with _ | e
      · rw [hck] at hs; exact Bool.noConfusion hs
      · simp [hck]
    rw [clientGoalLinks_eq, hU]
    have hout : runBatches cfg now [] true
        (collectGo cache goals [] emptyLinkMap []).1 cache st =
        ((collectGo cache goals [] emptyLinkMap []).1, cache, st) := by
      simp [runBatches]
    rw [hout]
    exact ⟨rfl, rfl⟩
  · intro goals
    rw [clientGoalLinks_eq]
    exact (runBatches_spec cfg now (collectGo cache goals [] emptyLinkMap []).2.length
      (collectGo cache goals [] emptyLinkMap []).2 le_rfl true
      (collectGo cache goals [] emptyLinkMap []).1 cache st
      (uncachedGoals_nodup cache goals) (uncachedGoals_cache_none cache goals)
      (uncachedGoals_r_none cache goals)).2.2
  · intro goals k l
    rw [clientGoalLinks_eq]
    have HR := runBatches_spec cfg now (collectGo cache goals [] emptyLinkMap []).2.length
      (collectGo cache goals [] emptyLinkMap []).2 le_rfl true
      (collectGo cache goals [] emptyLinkMap []).1 cache st
      (uncachedGoals_nodup cache goals) (uncachedGoals_cache_none cache goals)
      (uncachedGoals_r_none cache goals)
    constructor
    · intro hsome
      by_cases hkU : k ∈ ((collectGo cache goals [] emptyLinkMap []).2).map keyOf
      · obtain ⟨g, hgU, hgk⟩ := List.mem_map.mp hkU
        have h2 := HR.2.1 g hgU l
        rw [hgk] at h2
        refine ⟨((uncachedGoals_keys cache goals k).mp hkU).1, h2.1.mp hsome⟩
      · have h1 := HR.1 k hkU
        rw [h1.1] at hsome
        rcases hck : cacheGet cache k with _ | e
        · exfalso
          have hno : ∀ l', cacheGet cache k ≠ some (CacheEntry.found l') := by
            intro l' h; rw [hck] at h; exact Option.noConfusion h
          rw [collectGo_results_other cache k hno goals [] emptyLinkMap []] at hsome
          exact Option.noConfusion hsome
        · cases e with
          | notFound =>
            exfalso
            have hno : ∀ l', cacheGet cache k ≠ some (CacheEntry.found l') := by
              intro l' h
              rw [hck] at h
              injection h with h
              exact CacheEntry.noConfusion h
            rw [collectGo_results_other cache k hno goals [] emptyLinkMap []] at hsome
            exact Option.noConfusion hsome
          | found l' =>
            rw [collectGo_results_found cache k l' hck goals [] emptyLinkMap []] at hsome
            by_cases hkd : k ∈ (dedupFirst goals []).map keyOf
            · rw [if_pos hkd] at hsome
              injection hsome with hsome
              subst hsome
              refine ⟨((dedupFirst_keys_mem k goals []).mp hkd).1, ?_⟩
              rw [h1.2]
              exact hck
            · rw [if_neg hkd] at hsome
              exact absurd hsome (Option.noConfusion)
    · rintro ⟨hkG, hfound⟩
      by_cases hkU : k ∈ ((collectGo cache goals [] emptyLinkMap []).2).map keyOf
      · obtain ⟨g, hgU, hgk⟩ := List.mem_map.mp hkU
        have h2 := HR.2.1 g hgU l
        rw [hgk] at h2
        exact h2.1.mpr hfound
      · have h1 := HR.1 k hkU
        rw [h1.2] at hfound
        rw [h1.1]
        have hck : cacheGet cache k = some (CacheEntry.found l) := hfound
        rw [collectGo_results_found cache k l hck goals [] emptyLinkMap []]
        rw [if_pos ((dedupFirst_keys_mem k goals []).mpr ⟨hkG, List.not_mem_nil k⟩)]
  · intro goals g hgU
    rw [clientGoalLinks_eq]
    have HR := runBatches_spec cfg now (collectGo cache goals [] emptyLinkMap []).2.length
      (collectGo cache goals [] emptyLinkMap []).2 le_rfl true
      (collectGo cache goals [] emptyLinkMap []).1 cache st
      (uncachedGoals_nodup cache goals) (uncachedGoals_cache_none cache goals)
      (uncachedGoals_r_none cache goals)
    exact (HR.2.1 g hgU linkA).2

/-- Witness for `goalLinks_batching_spec`: a duplicated goal is resolved
once, a fully cached input is served without work, and an uncached goal is
resolved with a cache entry written. -/
theorem goalLinks_batching_spec_witness :
    clientGoalLinks ⟨false, errFetcher, errFetcher⟩ ([goalA] ++ goalA :: []) 0
        emptyCache runState0 =
      clientGoalLinks ⟨false, errFetcher, errFetcher⟩ ([goalA] ++ []) 0 emptyCache runState0
    ∧ (clientGoalLinks ⟨false, errFetcher, errFetcher⟩ [goalA] 0
        (cacheSet emptyCache (keyOf goalA) (CacheEntry.found linkA)) runState0).2.1 =
      cacheSet emptyCache (keyOf goalA) (CacheEntry.found linkA)
    ∧ ((clientGoalLinks ⟨false, errFetcher, errFetcher⟩ [goalA] 0
        emptyCache runState0).2.1 (keyOf goalA)).isSome = true :=
  ⟨(goalLinks_batching_spec ⟨false, errFetcher, errFetcher⟩ 0 emptyCache runState0).1
      [goalA] [] goalA (by decide),
   ((goalLinks_batching_spec ⟨false, errFetcher, errFetcher⟩ 0
      (cacheSet emptyCache (keyOf goalA) (CacheEntry.found linkA)) runState0).2.1
      [goalA] (by decide)).1,
   (goalLinks_batching_spec ⟨false, errFetcher, errFetcher⟩ 0
      emptyCache runState0).2.2.2.2 [goalA] goalA (by decide)⟩

end Golazo
